import Mathlib

/-!
Verification of the task/workflow orchestrator of the infinity-gateway
repository, shallow-embedded from the OrchestratorService class in
src/src/services/monitoring/monitoringService.ts.

Statuses, priorities and task records follow the TypeScript interfaces.
Collaborator calls (the executeAITask / executeMCPTask / executeWorkflowTask
/ executeMonitoringTask dispatch) are abstracted by an oracle from the task
id and its current retry count to either a success value or a thrown error
message; the persistence collaborator (memoryService.store) is abstracted by
an Except String Unit outcome.  Date.now() is modelled by a Nat clock
threaded through the functions.  Within one ready batch the source runs the
executeTask calls concurrently through Promise.allSettled; batch members are
independent records (ids pairwise distinct, and no batch member depends on
another, since every dependency of a ready task is already executed), so a
batch is modelled by running its members in list order.  A field of a
request that is absent (or falsy, which the source treats the same way
through JavaScript truthiness tests) is modelled as none.
-/

namespace Gateway

/-- Task lifecycle status (source: the union type of Task.status and
Workflow.status). -/
inductive Status where
  | pending
  | running
  | completed
  | failed
  | cancelled
deriving DecidableEq, Repr, Inhabited

/-- Task priority (source: the union type of Task.priority). -/
inductive Priority where
  | low
  | medium
  | high
  | critical
deriving DecidableEq, Repr, Inhabited

/-- Task type: which collaborator the executor dispatch switch invokes. -/
inductive TaskType where
  | ai
  | mcp
  | workflow
  | monitoring
deriving DecidableEq, Repr, Inhabited

/-- One entry of request.tools as used by analyzeAndCreateTasks: an optional
priority plus opaque tool data. -/
structure ToolReq where
  priority : Option Priority := none
  tool : String := ""
  input : String := ""
deriving DecidableEq, Repr, Inhabited

/-- One entry of request.dependencies: the pair of task ids
{dependent, dependency} read by setupTaskDependencies. -/
structure DepReq where
  dependent : String := ""
  dependency : String := ""
deriving DecidableEq, Repr, Inhabited

/-- The inbound request shape inspected by analyzeAndCreateTasks and
createWorkflow.  none models an absent (or falsy) field. -/
structure Request where
  name : Option String := none
  description : Option String := none
  prompt : Option String := none
  messages : Option (List String) := none
  tools : Option (List ToolReq) := none
  dependencies : Option (List DepReq) := none
  priority : Option Priority := none
deriving DecidableEq, Repr, Inhabited

/-- Opaque task payload: the whole request for ai tasks, the tool entry for
mcp tasks (the source assigns those objects directly). -/
inductive Payload where
  | empty
  | ofRequest (r : Request)
  | ofTool (t : ToolReq)
deriving DecidableEq, Repr, Inhabited

/-- Task record (source: interface Task).  Result values are opaque and
modelled as strings. -/
structure Task where
  id : String
  type : TaskType
  priority : Priority
  payload : Payload := .empty
  status : Status
  createdAt : Nat := 0
  startedAt : Option Nat := none
  completedAt : Option Nat := none
  result : Option String := none
  error : Option String := none
  retries : Nat := 0
  maxRetries : Nat := 3
  timeout : Option Nat := none
  dependencies : Option (List String) := none
  dependents : Option (List String) := none
deriving DecidableEq, Repr, Inhabited

/-- Workflow record (source: interface Workflow).  The aggregated result map
is an association list from task id to result value. -/
structure Workflow where
  id : String
  name : String := ""
  description : Option String := none
  tasks : List Task := []
  status : Status
  createdAt : Nat := 0
  startedAt : Option Nat := none
  completedAt : Option Nat := none
  result : Option (List (String × String)) := none
  error : Option String := none
deriving DecidableEq, Repr, Inhabited

/-- Collaborator oracle for the executor dispatch switch: from the task id
and the current retry count of the task to the outcome of the collaborator
call (ok value, or thrown error message). -/
abbrev Collab : Type := String → Nat → Except String String

/-- Source getPriorityWeight: critical 4, high 3, medium 2, low 1.  The
source takes a string and defaults to 2, but every call site passes one of
the four Task.priority values. -/
def getPriorityWeight : Priority → Nat
  | .critical => 4
  | .high => 3
  | .medium => 2
  | .low => 1

/-- Message of the error thrown by executeWorkflow when the ready set is
empty while unresolved tasks remain (the cycle / dangling-dependency
signal the specification calls GraphError). -/
def circularDependencyMsg : String :=
  "Circular dependency detected or no tasks ready to execute"

/-- Message of the error thrown by executeWorkflow when a task of a batch
rejects (an ordinary task-execution failure). -/
def taskFailedMsg (taskId reason : String) : String :=
  "Task " ++ taskId ++ " failed: " ++ reason

/-- Boolean membership in a list of strings (models Set.has / includes). -/
def memStr (xs : List String) (x : String) : Bool := xs.any (fun y => y == x)

/-- Result of one executeTask run: the mutated task record, the outcome the
caller observes (fulfilled value or rejection message), the advanced
clock. -/
structure ExecResult where
  task : Task
  outcome : Except String String
  clock : Nat
deriving Repr

/-- Source executeTask: mark running and stamp startedAt, dispatch to the
collaborator, on success mark completed / stamp completedAt / store result,
on failure mark failed / stamp completedAt / store the error message and, if
retries remain, increment retries and flip the status back to pending; the
error is rethrown to the caller in every failure case. -/
def executeTask (collab : Collab) (clock : Nat) (t : Task) : ExecResult :=
  let t1 : Task := { t with status := .running, startedAt := some clock }
  match collab t1.id t1.retries with
  | Except.ok v =>
      let t2 : Task := { t1 with
        status := .completed, completedAt := some (clock + 1), result := some v }
      { task := t2, outcome := Except.ok v, clock := clock + 2 }
  | Except.error e =>
      let t2 : Task := { t1 with
        status := .failed, completedAt := some (clock + 1), error := some e }
      let t3 : Task := if t2.retries < t2.maxRetries
        then { t2 with retries := t2.retries + 1, status := .pending }
        else t2
      { task := t3, outcome := Except.error e, clock := clock + 2 }

/-- Dependency test of the ready-set filter in executeWorkflow:
no dependencies field, or every dependency id already executed. -/
def depsSatisfied (executed : List String) (t : Task) : Bool :=
  match t.dependencies with
  | none => true
  | some deps => deps.all (fun d => memStr executed d)

/-- The ready-set filter of executeWorkflow: tasks not yet executed whose
dependency ids are all in the executed set.  The filter preserves the
creation (list) order of workflow.tasks; no sorting is applied here. -/
def readyTasks (tasks : List Task) (executed : List String) : List Task :=
  tasks.filter (fun t => !(memStr executed t.id) && depsSatisfied executed t)

/-- executedTasks.add: JavaScript Set insertion (no duplicates). -/
def addExecuted (executed : List String) (i : String) : List String :=
  if memStr executed i then executed else executed ++ [i]

/-- Run executeTask over a ready batch in list order, collecting the mutated
task records paired with their outcomes (the shape Promise.allSettled hands
back to the result loop). -/
def execBatch (collab : Collab) : Nat → List Task → List (Task × Except String String) × Nat
  | c, [] => ([], c)
  | c, t :: ts =>
      let r := executeTask collab c t
      let rest := execBatch collab r.clock ts
      ((r.task, r.outcome) :: rest.1, rest.2)

/-- The batch result loop of executeWorkflow: add each task id to
executedTasks, record fulfilled values in the result map, and throw
taskFailedMsg at the first rejection (some msg in the third component). -/
def foldBatch : List (Task × Except String String) → List String → List (String × String) →
    List String × List (String × String) × Option String
  | [], executed, results => (executed, results, none)
  | (t, out) :: rest, executed, results =>
      let executed2 := addExecuted executed t.id
      match out with
      | Except.ok v => foldBatch rest executed2 (results ++ [(t.id, v)])
      | Except.error e => (executed2, results, some (taskFailedMsg t.id e))

/-- Write back one mutated task record into the workflow task list (the
source mutates the shared record in place; records are keyed by id). -/
def updateTask (tasks : List Task) (t : Task) : List Task :=
  tasks.map (fun u => if u.id = t.id then t else u)

/-- Write back a batch of mutated task records, in batch order. -/
def applyUpdates (tasks : List Task) (upds : List Task) : List Task :=
  upds.foldl updateTask tasks

/-- Instrumentation: one scheduling pass of executeWorkflow, recording the
task list and executed set at the start of the pass together with the ready
set dispatched in that pass. -/
structure BatchEvent where
  tasksBefore : List Task
  executedBefore : List String
  ready : List Task
deriving DecidableEq, Repr, Inhabited

/-- The while loop of executeWorkflow, with explicit fuel (none = fuel ran
out; the fuel tasks.length + 1 used by executeWorkflow is proved sufficient
below).  Returns the final task records, clock, the trace of scheduling
passes, and either the aggregated result map or the thrown error message. -/
def wfLoop (collab : Collab) :
    Nat → List Task → List String → List (String × String) → Nat → List BatchEvent →
    Option (List Task × Nat × List BatchEvent × Except String (List (String × String)))
  | 0, _, _, _, _, _ => none
  | fuel + 1, tasks, executed, results, clock, trace =>
      if executed.length < tasks.length then
        match readyTasks tasks executed with
        | [] => some (tasks, clock, trace, Except.error circularDependencyMsg)
        | rt :: rts =>
            let ready := rt :: rts
            let b := execBatch collab clock ready
            let tasks2 := applyUpdates tasks (b.1.map Prod.fst)
            let ev : BatchEvent :=
              { tasksBefore := tasks, executedBefore := executed, ready := ready }
            let f := foldBatch b.1 executed results
            match f.2.2 with
            | none => wfLoop collab fuel tasks2 f.1 f.2.1 b.2 (trace ++ [ev])
            | some e => some (tasks2, b.2, trace ++ [ev], Except.error e)
      else
        some (tasks, clock, trace, Except.ok results)

/-- The finally block of executeWorkflow: the persistence snapshot runs
after the terminal transition; an error thrown by the store replaces the
result the caller would otherwise observe (there is no catch around it). -/
def finallyStore (store : Except String Unit) (r : Except String α) : Except String α :=
  match store with
  | Except.ok _ => r
  | Except.error e => Except.error e

/-- Result of executeWorkflow: the final workflow record, what the caller
observes, the trace of scheduling passes (instrumentation), the clock. -/
structure ExecWfResult where
  wf : Workflow
  result : Except String (List (String × String))
  trace : List BatchEvent
  clock : Nat
deriving Repr

/-- The try block of executeWorkflow on an already-looked-up workflow: mark
running, drive the scheduler/executor loop, on normal exit mark completed
and store the aggregated result map, on a thrown error mark failed and
record the message.  Returns the final workflow record, the pre-finally
outcome, the trace and the clock. -/
def executeWorkflowCore (collab : Collab) (w : Workflow) (clock : Nat) :
    Workflow × Except String (List (String × String)) × List BatchEvent × Nat :=
  let w1 : Workflow := { w with status := .running, startedAt := some clock }
  match wfLoop collab (w1.tasks.length + 1) w1.tasks [] [] (clock + 1) [] with
  | some (tasks2, c, tr, Except.ok results) =>
      let w2 : Workflow := { w1 with
        tasks := tasks2
        status := .completed
        completedAt := some c
        result := some results }
      (w2, Except.ok results, tr, c + 1)
  | some (tasks2, c, tr, Except.error e) =>
      let w2 : Workflow := { w1 with
        tasks := tasks2
        status := .failed
        completedAt := some c
        error := some e }
      (w2, Except.error e, tr, c + 1)
  | none => (w1, Except.error "out of fuel", [], clock)

/-- Source executeWorkflow: the try block above followed by the finally
block, which persists the snapshot and whose store failure replaces the
outcome the caller observes. -/
def executeWorkflow (collab : Collab) (store : Except String Unit) (w : Workflow)
    (clock : Nat) : ExecWfResult :=
  let out := executeWorkflowCore collab w clock
  { wf := out.1, result := finallyStore store out.2.1, trace := out.2.2.1, clock := out.2.2.2 }

/-- The ai task built by analyzeAndCreateTasks when the request carries a
prompt or messages. -/
def mkAiTask (req : Request) (clock : Nat) : Task :=
  { id := "task_ai_" ++ toString clock
    type := .ai
    priority := req.priority.getD .medium
    payload := .ofRequest req
    status := .pending
    createdAt := clock
    retries := 0
    maxRetries := 3 }

/-- One mcp task per entry of request.tools. -/
def mkMcpTask (tool : ToolReq) (clock : Nat) : Task :=
  { id := "task_mcp_" ++ toString clock
    type := .mcp
    priority := tool.priority.getD .medium
    payload := .ofTool tool
    status := .pending
    createdAt := clock
    retries := 0
    maxRetries := 3 }

/-- Create the mcp tasks for a tool list, advancing the clock per task. -/
def mcpTasks : List ToolReq → Nat → List Task × Nat
  | [], c => ([], c)
  | tool :: rest, c =>
      let p := mcpTasks rest (c + 1)
      (mkMcpTask tool c :: p.1, p.2)

/-- One iteration of setupTaskDependencies: if both referenced ids exist in
the task list, push the dependency id onto the dependent task and the
dependent id onto the dependency task (both pushes hit the same record when
the two ids coincide, as in the source where both are the same object). -/
def addDependencyEdge (tasks : List Task) (d : DepReq) : List Task :=
  match tasks.find? (fun t => t.id == d.dependent),
        tasks.find? (fun t => t.id == d.dependency) with
  | some _, some _ =>
      tasks.map (fun t =>
        let t1 := if t.id == d.dependent
          then { t with dependencies := some (t.dependencies.getD [] ++ [d.dependency]) }
          else t
        if t1.id == d.dependency
          then { t1 with dependents := some (t1.dependents.getD [] ++ [d.dependent]) }
          else t1)
  | _, _ => tasks

/-- Source setupTaskDependencies: wire each requested edge in order. -/
def setupTaskDependencies (tasks : List Task) (deps : List DepReq) : List Task :=
  deps.foldl addDependencyEdge tasks

/-- Source analyzeAndCreateTasks: an ai task when prompt or messages is
present, one mcp task per entry of a tools array, then the requested
dependency edges. -/
def analyzeAndCreateTasks (req : Request) (clock : Nat) : List Task × Nat :=
  let p1 : List Task × Nat :=
    match req.prompt, req.messages with
    | none, none => ([], clock)
    | _, _ => ([mkAiTask req clock], clock + 1)
  let p2 : List Task × Nat :=
    match req.tools with
    | none => p1
    | some tools =>
        let m := mcpTasks tools p1.2
        (p1.1 ++ m.1, m.2)
  match req.dependencies with
  | none => p2
  | some deps => (setupTaskDependencies p2.1 deps, p2.2)

/-- Result of createWorkflow: the workflow record that was registered in the
workflow map, what the caller observes, and the advanced clock. -/
structure CreateResult where
  wf : Workflow
  result : Except String Workflow
  clock : Nat
deriving Repr

/-- Source createWorkflow: build the task list, register the workflow record
(in the caller, before the store call), then await the persistence store;
a store failure rejects to the caller with nothing caught. -/
def createWorkflow (store : Except String Unit) (req : Request) (clock : Nat) :
    CreateResult :=
  let wid := "workflow_" ++ toString clock
  let p := analyzeAndCreateTasks req (clock + 1)
  let wf : Workflow :=
    { id := wid
      name := req.name.getD ("Workflow " ++ wid)
      description := req.description
      tasks := p.1
      status := .pending
      createdAt := p.2 }
  { wf := wf
    result := match store with
      | Except.ok _ => Except.ok wf
      | Except.error e => Except.error e
    clock := p.2 + 1 }

/-- The failed-task requeue branch of startSelfHealing: a failed task with
retry budget left is flipped back to pending with retries incremented. -/
def healRequeue (t : Task) : Task :=
  if t.status == Status.failed && decide (t.retries < t.maxRetries)
  then { t with status := .pending, retries := t.retries + 1 }
  else t

/-- The stuck-task test of startSelfHealing: running, started, and the
elapsed time exceeds the timeout (task timeout in seconds, falling back to
the configured default, times 1000 for milliseconds). -/
def isStuck (cfgTimeout now : Nat) (t : Task) : Bool :=
  t.status == Status.running && t.startedAt.isSome &&
    decide ((t.timeout.getD cfgTimeout) * 1000 < now - (t.startedAt.getD 0))

/-- The stuck-task branch of startSelfHealing: force-fail with a timeout
error. -/
def healTimeout (cfgTimeout now : Nat) (t : Task) : Task :=
  if isStuck cfgTimeout now t
  then { t with status := .failed, error := some "Task timed out" }
  else t

/-- One evaluation of the startAutoScaling interval body, as a function of
the observed queue length, running count and current ceiling: plus 2 when
the backlog exceeds 20 with headroom, minus 1 when the backlog is below 5
with more than 5 running and a ceiling above 5, otherwise unchanged. -/
def autoScaleStep (queueLength runningCount maxConcurrent : Nat) : Nat :=
  if 20 < queueLength ∧ runningCount < maxConcurrent then maxConcurrent + 2
  else if queueLength < 5 ∧ 5 < runningCount ∧ 5 < maxConcurrent then maxConcurrent - 1
  else maxConcurrent

/-- Iterated auto-scaling evaluations under a sustained backlog observation
(queue length 21 and no running tasks at every evaluation). -/
def scaleRun : Nat → Nat → Nat
  | 0, m => m
  | n + 1, m => scaleRun n (autoScaleStep 21 0 m)

/-- Stable sort by priority weight, descending: the model of the source
Array.sort call with comparator (a, b) => weight(b) - weight(a).  ES2019
requires Array.prototype.sort to be stable, and a stable sort under this
comparator lists the weight-4 elements first in original order, then the
weight-3, weight-2 and weight-1 elements. -/
def sortByPriorityDesc (l : List Task) : List Task :=
  (l.filter (fun t => getPriorityWeight t.priority == 4))
    ++ (l.filter (fun t => getPriorityWeight t.priority == 3))
    ++ (l.filter (fun t => getPriorityWeight t.priority == 2))
    ++ (l.filter (fun t => getPriorityWeight t.priority == 1))

/-- Decidable check that a task list is ordered by priority weight,
descending. -/
def isSortedByWeightDesc : List Task → Bool
  | [] => true
  | [_] => true
  | a :: b :: rest =>
      decide (getPriorityWeight b.priority ≤ getPriorityWeight a.priority)
        && isSortedByWeightDesc (b :: rest)

/-- Association-list lookup (JavaScript Map.get). -/
def assocGet (m : List (String × α)) (k : String) : Option α :=
  (m.find? (fun kv => kv.1 == k)).map (fun kv => kv.2)

/-- Association-list insertion preserving insertion order (Map.set). -/
def assocSet (m : List (String × α)) (k : String) (v : α) : List (String × α) :=
  if m.any (fun kv => kv.1 == k)
  then m.map (fun kv => if kv.1 == k then (k, v) else kv)
  else m ++ [(k, v)]

/-- The mutable fields of OrchestratorService: the task map, the workflow
map, the running-task set, the task queue, the concurrency ceiling and the
configured task timeout, plus the model clock. -/
structure OrchState where
  tasks : List (String × Task) := []
  workflows : List (String × Workflow) := []
  runningTasks : List String := []
  taskQueue : List Task := []
  maxConcurrentTasks : Nat := 10
  taskTimeout : Nat := 300
  clock : Nat := 0
deriving DecidableEq, Repr, Inhabited

/-- Constructor configuration (source defaults 10 and 300). -/
structure OrchConfig where
  maxConcurrentTasks : Nat := 10
  taskTimeout : Nat := 300
deriving DecidableEq, Repr, Inhabited

/-- A freshly constructed OrchestratorService: every collection empty. -/
def initState (cfg : OrchConfig) : OrchState :=
  { maxConcurrentTasks := cfg.maxConcurrentTasks, taskTimeout := cfg.taskTimeout }

/-- The pending tasks of the task map in the priority order processTaskQueue
dispatches them (filter pending, stable sort by weight descending). -/
def pendingSorted (tasks : List (String × Task)) : List Task :=
  sortByPriorityDesc ((tasks.map Prod.snd).filter (fun t => t.status == Status.pending))

/-- One operation on the orchestrator state: a createWorkflow call, an
executeWorkflow call, one pass of processTaskQueue, one self-healing sweep,
one auto-scaling evaluation.  The collaborator and store oracles
parameterize external behavior.  (orchestrate is the composition of the
first two; the remaining public methods only read state.) -/
inductive Op where
  | createWf (store : Except String Unit) (req : Request)
  | execWf (collab : Collab) (store : Except String Unit) (wid : String)
  | queuePass (collab : Collab)
  | healPass (now : Nat)
  | scalePass

/-- Apply one operation, mirroring the source method bodies.  processTaskQueue
filters the task map for pending tasks, sorts by priority weight descending,
dispatches up to the free concurrency slots, and each dispatched task leaves
the running set when its execution settles; the self-healing sweep requeues
retryable failed tasks, then force-fails stuck ones and releases their
slots. -/
def applyOp (s : OrchState) : Op → OrchState
  | .createWf store req =>
      let r := createWorkflow store req s.clock
      { s with workflows := assocSet s.workflows r.wf.id r.wf, clock := r.clock }
  | .execWf collab store wid =>
      match assocGet s.workflows wid with
      | none => s
      | some w =>
          let r := executeWorkflow collab store w s.clock
          { s with workflows := assocSet s.workflows wid r.wf, clock := r.clock }
  | .queuePass collab =>
      let picked := (pendingSorted s.tasks).take (s.maxConcurrentTasks - s.runningTasks.length)
      let dispatched := picked.foldl (fun m t => assocSet m t.id (executeTask collab s.clock t).task) s.tasks
      { s with tasks := dispatched }
  | .healPass now =>
      let requeued := s.tasks.map (fun kt => (kt.1, healRequeue kt.2))
      let healed := requeued.map (fun kt => (kt.1, healTimeout s.taskTimeout now kt.2))
      let stillRunning := s.runningTasks.filter (fun i => !(requeued.any (fun kt => kt.1 == i && isStuck s.taskTimeout now kt.2)))
      { s with tasks := healed, runningTasks := stillRunning }
  | .scalePass =>
      { s with maxConcurrentTasks := autoScaleStep s.taskQueue.length s.runningTasks.length s.maxConcurrentTasks }

/-- Source getTask: lookup in the task map. -/
def getTask (s : OrchState) (taskId : String) : Option Task := assocGet s.tasks taskId

/-- Source listTasks: the task map values, optionally filtered by status. -/
def listTasks (s : OrchState) (status : Option Status) : List Task :=
  let ts := s.tasks.map Prod.snd
  match status with
  | none => ts
  | some st => ts.filter (fun t => t.status == st)

/-- States reachable from a freshly constructed orchestrator by any sequence
of the modelled operations. -/
inductive Reachable : OrchState → Prop where
  | init (cfg : OrchConfig) : Reachable (initState cfg)
  | step {s : OrchState} (op : Op) : Reachable s → Reachable (applyOp s op)

/-- A single mutation of one task record by the executor or by a
self-healing sweep: an executeTask run, the failed-task requeue branch, the
stuck-task sweep. -/
inductive TaskOp where
  | exec (collab : Collab) (clock : Nat)
  | requeue
  | timeoutSweep (cfgTimeout now : Nat)

/-- Apply one task-level mutation. -/
def applyTaskOp (t : Task) : TaskOp → Task
  | .exec collab clock => (executeTask collab clock t).task
  | .requeue => healRequeue t
  | .timeoutSweep cfg now => healTimeout cfg now t

/-- Apply a sequence of task-level mutations in order. -/
def applyTaskOps : Task → List TaskOp → Task
  | t, [] => t
  | t, op :: ops => applyTaskOps (applyTaskOp t op) ops

/-- First character of a string (used to tell the graph error message apart
from every task-execution error message). -/
def firstChar (s : String) : Option Char := s.data.head?

/-- All dependencies of a task resolve to a completed task of the list. -/
def depsCompleted (ts : List Task) (t : Task) : Prop :=
  ∀ d ∈ t.dependencies.getD [], ∃ u ∈ ts, u.id = d ∧ u.status = Status.completed

/-- A scheduling pass is good when every task it dispatches has all its
dependencies completed at the start of the pass. -/
def goodEvent (ev : BatchEvent) : Prop :=
  ∀ t ∈ ev.ready, depsCompleted ev.tasksBefore t

/-- Loop invariant of executeWorkflow: every id in the executed set belongs
to a task of the current task list whose status is completed. -/
def ExecutedCompleted (tasks : List Task) (executed : List String) : Prop :=
  ∀ i ∈ executed, ∃ u ∈ tasks, u.id = i ∧ u.status = Status.completed

/-- Collaborator oracle that always succeeds. -/
def okCollab : Collab := fun _ _ => Except.ok "ok"

/-- Collaborator oracle failing the first two attempts of any task and
succeeding from the third on (Scenario C of the specification). -/
def failTwiceCollab : Collab :=
  fun _ n => if n < 2 then Except.error "boom" else Except.ok "done"

/-- Collaborator oracle failing only the first attempt of any task. -/
def failOnceCollab : Collab :=
  fun _ n => if n = 0 then Except.error "boom" else Except.ok "done"

/-- Concrete plain task for the test fixtures. -/
def mkPlainTask (taskId : String) (pr : Priority) (created : Nat)
    (deps : Option (List String)) : Task :=
  { id := taskId, type := .ai, priority := pr, status := .pending,
    createdAt := created, dependencies := deps }

/-- Fixture: workflow with task B depending on task A. -/
def chainWf : Workflow :=
  { id := "w1", status := .pending,
    tasks := [mkPlainTask "A" .medium 0 none, mkPlainTask "B" .medium 1 (some ["A"])] }

/-- Fixture: workflow whose two tasks form a dependency cycle. -/
def cycleWf : Workflow :=
  { id := "w2", status := .pending,
    tasks := [mkPlainTask "A" .medium 0 (some ["B"]), mkPlainTask "B" .medium 1 (some ["A"])] }

/-- Fixture: single task with maxRetries 2 (Scenario C). -/
def retryTask : Task := { mkPlainTask "t" .medium 0 none with maxRetries := 2 }

/-- Fixture: workflow holding only retryTask. -/
def retryWf : Workflow := { id := "w3", status := .pending, tasks := [retryTask] }

/-- Fixture: a low-priority task created before a critical one, both ready. -/
def lowCritWf : Workflow :=
  { id := "w5", status := .pending,
    tasks := [mkPlainTask "tLow" .low 0 none, mkPlainTask "tCrit" .critical 1 none] }

/-- Fixture: one-task workflow that succeeds. -/
def plainWf : Workflow :=
  { id := "w6", status := .pending, tasks := [mkPlainTask "A" .medium 0 none] }

/-- A task record after one failed executor run with retry budget left:
pending again, stamps set, error recorded, retries incremented. -/
def failedOnceTask (t : Task) (clock : Nat) (e : String) : Task :=
  { t with
    status := Status.pending
    startedAt := some clock
    completedAt := some (clock + 1)
    error := some e
    retries := t.retries + 1 }

/-- Fixture: request carrying a prompt (creates one ai task). -/
def promptReq : Request := { prompt := some "p" }

/-- Fixture: request with no prompt, no messages and no tools array. -/
def emptyReq : Request := { name := some "empty" }

end Gateway

namespace Gateway

theorem memStr_iff (xs : List String) (x : String) : memStr xs x = true ↔ x ∈ xs := by
  simp [memStr, List.any_eq_true, beq_iff_eq]

theorem not_mem_of_memStr_false {xs : List String} {x : String}
    (h : memStr xs x = false) : x ∉ xs := by
  intro hx
  rw [← memStr_iff xs x] at hx
  rw [h] at hx
  cases hx

theorem executeTask_id (collab : Collab) (clock : Nat) (t : Task) :
    (executeTask collab clock t).task.id = t.id := by
  simp only [executeTask]
  cases collab t.id t.retries with
  | error e => dsimp only; split <;> rfl
  | ok v => rfl

theorem executeTask_maxRetries (collab : Collab) (clock : Nat) (t : Task) :
    (executeTask collab clock t).task.maxRetries = t.maxRetries := by
  simp only [executeTask]
  cases collab t.id t.retries with
  | error e => dsimp only; split <;> rfl
  | ok v => rfl

theorem executeTask_outcome (collab : Collab) (clock : Nat) (t : Task) :
    (executeTask collab clock t).outcome = collab t.id t.retries := by
  simp only [executeTask]
  cases collab t.id t.retries with
  | error e => rfl
  | ok v => rfl

theorem executeTask_ok_fields (clock : Nat) {collab : Collab} {t : Task} {v : String}
    (h : collab t.id t.retries = Except.ok v) :
    (executeTask collab clock t).task.status = Status.completed
    ∧ (executeTask collab clock t).task.result = some v
    ∧ (executeTask collab clock t).task.error = t.error
    ∧ (executeTask collab clock t).task.retries = t.retries := by
  simp [executeTask, h]

theorem executeTask_error_fields (clock : Nat) {collab : Collab} {t : Task} {e : String}
    (h : collab t.id t.retries = Except.error e) :
    (executeTask collab clock t).task.error = some e
    ∧ (executeTask collab clock t).task.result = t.result := by
  simp only [executeTask, h]
  split <;> exact ⟨rfl, rfl⟩

/-- Helper for C7: under a sustained backlog the ceiling grows by 2 per
evaluation. -/
theorem scaleRun_eq (n : Nat) : ∀ m : Nat, 0 < m → scaleRun n m = m + 2 * n := by
  induction n with
  | zero => intro m _; simp [scaleRun]
  | succ k ih =>
      intro m hm
      have hstep : autoScaleStep 21 0 m = m + 2 := by
        unfold autoScaleStep
        rw [if_pos ⟨by omega, hm⟩]
      rw [scaleRun, hstep, ih (m + 2) (by omega)]
      omega

/-- C7 counterexample: the auto-scaling ceiling has no upper limit.  Starting
from the default ceiling 10, five evaluations under backlog reach 20, and for
every claimed bound there is an evaluation count whose ceiling exceeds it, so
no upper limit exists that the ceiling cannot exceed under sustained
backlog. -/
theorem c7_counterexample :
    scaleRun 5 10 = 20 ∧ ¬ ∃ B : Nat, ∀ n : Nat, scaleRun n 10 ≤ B := by
  constructor
  · rfl
  · rintro ⟨B, hB⟩
    have h := hB (B + 1)
    rw [scaleRun_eq (B + 1) 10 (by omega)] at h
    omega

/-- C7 amended: each auto-scaling evaluation changes the ceiling by plus 2,
minus 1, or not at all; it is only decremented when above 5, so it never
drops below the floor 5 once at or above it; but there is no upper limit:
under sustained backlog the ceiling eventually exceeds every bound. -/
theorem c7_amended (q r m : Nat) :
    (autoScaleStep q r m = m + 2 ∨ autoScaleStep q r m = m - 1 ∨ autoScaleStep q r m = m)
    ∧ (5 ≤ m → 5 ≤ autoScaleStep q r m)
    ∧ (∀ B : Nat, ∃ n : Nat, B < scaleRun n 10) := by
  refine ⟨?_, ?_, ?_⟩
  · unfold autoScaleStep
    split
    · exact Or.inl rfl
    · split
      · exact Or.inr (Or.inl rfl)
      · exact Or.inr (Or.inr rfl)
  · intro h5
    unfold autoScaleStep
    split
    · omega
    · split
      · rename_i h1 h2; omega
      · omega
  · intro B
    refine ⟨B + 1, ?_⟩
    rw [scaleRun_eq (B + 1) 10 (by omega)]
    omega

/-- C7 witness. -/
theorem c7_witness : 5 ≤ autoScaleStep 21 0 10 :=
  (c7_amended 21 0 10).2.1 (by decide)

theorem applyTaskOp_maxRetries (t : Task) (op : TaskOp) :
    (applyTaskOp t op).maxRetries = t.maxRetries := by
  cases op with
  | exec collab clock => exact executeTask_maxRetries collab clock t
  | requeue =>
      simp only [applyTaskOp]
      unfold healRequeue
      split <;> rfl
  | timeoutSweep cfg now =>
      simp only [applyTaskOp]
      unfold healTimeout
      split <;> rfl

theorem applyTaskOp_retries_le (t : Task) (op : TaskOp) (h : t.retries ≤ t.maxRetries) :
    (applyTaskOp t op).retries ≤ t.maxRetries := by
  cases op with
  | exec collab clock =>
      simp only [applyTaskOp, executeTask]
      cases collab t.id t.retries with
      | error e =>
          dsimp only
          split
          · rename_i hlt; simpa using hlt
          · simpa using h
      | ok v => simpa using h
  | requeue =>
      simp only [applyTaskOp]
      unfold healRequeue
      split
      · rename_i hcond
        simp only [Bool.and_eq_true, decide_eq_true_eq] at hcond
        simpa using hcond.2
      · simpa using h
  | timeoutSweep cfg now =>
      simp only [applyTaskOp]
      unfold healTimeout
      split <;> simpa using h

theorem applyTaskOp_exhausted (t : Task) (op : TaskOp) (hr : t.retries = t.maxRetries)
    (hs : t.status ≠ Status.pending) :
    (applyTaskOp t op).retries = t.retries ∧ (applyTaskOp t op).status ≠ Status.pending := by
  cases op with
  | exec collab clock =>
      simp only [applyTaskOp, executeTask]
      cases collab t.id t.retries with
      | error e =>
          dsimp only
          split
          · rename_i hlt
            omega
          · exact ⟨rfl, by simp⟩
      | ok v => exact ⟨rfl, by simp⟩
  | requeue =>
      simp only [applyTaskOp]
      unfold healRequeue
      split
      · rename_i hcond
        simp only [Bool.and_eq_true, decide_eq_true_eq] at hcond
        omega
      · exact ⟨rfl, hs⟩
  | timeoutSweep cfg now =>
      simp only [applyTaskOp]
      unfold healTimeout
      split
      · exact ⟨rfl, by simp⟩
      · exact ⟨rfl, hs⟩

theorem applyTaskOps_exhausted (ops : List TaskOp) : ∀ t : Task,
    t.retries = t.maxRetries → t.status ≠ Status.pending →
    (applyTaskOps t ops).retries = (applyTaskOps t ops).maxRetries
    ∧ (applyTaskOps t ops).status ≠ Status.pending := by
  induction ops with
  | nil => intro t hr hs; exact ⟨hr, hs⟩
  | cons op ops ih =>
      intro t hr hs
      have h1 := applyTaskOp_exhausted t op hr hs
      have h2 := applyTaskOp_maxRetries t op
      exact ih (applyTaskOp t op) (by rw [h1.1, h2, hr]) h1.2

theorem applyTaskOps_maxRetries (ops : List TaskOp) : ∀ t : Task,
    (applyTaskOps t ops).maxRetries = t.maxRetries := by
  induction ops with
  | nil => intro t; rfl
  | cons op ops ih =>
      intro t
      rw [applyTaskOps, ih (applyTaskOp t op), applyTaskOp_maxRetries]

theorem applyTaskOps_retries_le (ops : List TaskOp) : ∀ t : Task,
    t.retries ≤ t.maxRetries → (applyTaskOps t ops).retries ≤ t.maxRetries := by
  induction ops with
  | nil => intro t h; exact h
  | cons op ops ih =>
      intro t h
      have h1 := applyTaskOp_retries_le t op h
      have h2 := applyTaskOp_maxRetries t op
      have := ih (applyTaskOp t op) (by rw [h2]; exact h1)
      rw [h2] at this
      exact this

/-- C4: across every sequence of executor runs and self-healing sweeps on a
task, the retries counter never exceeds maxRetries, and once retries equals
maxRetries while the status is failed, no operation ever sets the status
back to pending. -/
theorem c4_retry_bound (t : Task) (ops : List TaskOp) :
    ((applyTaskOps t ops).maxRetries = t.maxRetries)
    ∧ (t.retries ≤ t.maxRetries →
        (applyTaskOps t ops).retries ≤ (applyTaskOps t ops).maxRetries)
    ∧ (t.retries = t.maxRetries → t.status = Status.failed →
        (applyTaskOps t ops).status ≠ Status.pending) := by
  refine ⟨applyTaskOps_maxRetries ops t, ?_, ?_⟩
  · intro h
    rw [applyTaskOps_maxRetries ops t]
    exact applyTaskOps_retries_le ops t h
  · intro hr hs
    refine (applyTaskOps_exhausted ops t hr ?_).2
    rw [hs]
    simp

/-- C4 witness. -/
theorem c4_witness :
    (applyTaskOps { mkPlainTask "t4" Priority.medium 0 none with
        retries := 3, maxRetries := 3, status := Status.failed }
      [TaskOp.requeue, TaskOp.exec okCollab 0, TaskOp.requeue]).status ≠ Status.pending :=
  (c4_retry_bound
      { mkPlainTask "t4" Priority.medium 0 none with
        retries := 3, maxRetries := 3, status := Status.failed }
      [TaskOp.requeue, TaskOp.exec okCollab 0, TaskOp.requeue]).2.2 rfl rfl

/-- C8 counterexample: a task of a createWorkflow-built workflow whose first
executeWorkflow run fails (error recorded, task flipped back to pending with
a retry) and whose second executeWorkflow run succeeds ends with result and
error both set: the fields are not mutually exclusive, because a later
success never clears the stale error. -/
theorem c8_counterexample :
    ((executeWorkflow failOnceCollab (Except.ok ())
        (executeWorkflow failOnceCollab (Except.ok ())
          (createWorkflow (Except.ok ()) promptReq 0).wf 10).wf 20).wf.tasks.map
        (fun t => (t.status, t.result, t.error)))
      = [(Status.completed, some "done", some "boom")] := by
  rfl

/-- C8 amended: executeTask writes result on each successful run and error
on each failed run, leaving the other field unchanged rather than clearing
it; hence a task that failed earlier (error set) and later succeeds ends
with both result and the stale error set, and the fields are exclusive only
within a single run. -/
theorem c8_error_not_cleared (collab : Collab) (clock : Nat) (t : Task) :
    (∀ v, collab t.id t.retries = Except.ok v →
      (executeTask collab clock t).task.result = some v
      ∧ (executeTask collab clock t).task.error = t.error
      ∧ (executeTask collab clock t).task.status = Status.completed)
    ∧ (∀ e, collab t.id t.retries = Except.error e →
      (executeTask collab clock t).task.error = some e
      ∧ (executeTask collab clock t).task.result = t.result) := by
  constructor
  · intro v hv
    have h := executeTask_ok_fields clock hv
    exact ⟨h.2.1, h.2.2.1, h.1⟩
  · intro e he
    exact executeTask_error_fields clock he

/-- C8 witness. -/
theorem c8_witness :
    (executeTask okCollab 0 (mkPlainTask "t8" Priority.medium 0 none)).task.result = some "ok" :=
  ((c8_error_not_cleared okCollab 0 (mkPlainTask "t8" Priority.medium 0 none)).1 "ok" rfl).1

/-- C6 counterexample: a store failure during createWorkflow rejects to the
caller, and a store failure in the finally block of executeWorkflow replaces
the outcome of a fully successful workflow with the store error; the error
is not swallowed. -/
theorem c6_counterexample :
    (createWorkflow (Except.error "redis down") promptReq 0).result
        = Except.error "redis down"
    ∧ (executeWorkflow okCollab (Except.error "redis down") plainWf 0).result
        = Except.error "redis down"
    ∧ (executeWorkflow okCollab (Except.error "redis down") plainWf 0).wf.status
        = Status.completed :=
  ⟨rfl, rfl, rfl⟩

/-- C6 amended: persistence store failures are not swallowed: createWorkflow
and executeWorkflow raise the store error to the caller (in executeWorkflow
the finally-block failure replaces the outcome).  They do, however, leave
the workflow record itself exactly as in a run whose store succeeds: no task
or workflow status changes, and createWorkflow still registers the
workflow. -/
theorem c6_store_error_propagates (req : Request) (clock : Nat) (e : String)
    (collab : Collab) (w : Workflow) (s : OrchState) :
    ((createWorkflow (Except.error e) req clock).result = Except.error e)
    ∧ ((createWorkflow (Except.error e) req clock).wf
        = (createWorkflow (Except.ok ()) req clock).wf)
    ∧ ((executeWorkflow collab (Except.error e) w clock).result = Except.error e)
    ∧ ((executeWorkflow collab (Except.error e) w clock).wf
        = (executeWorkflow collab (Except.ok ()) w clock).wf)
    ∧ ((applyOp s (Op.createWf (Except.error e) req)).workflows
        = (applyOp s (Op.createWf (Except.ok ()) req)).workflows) :=
  ⟨rfl, rfl, rfl, rfl, rfl⟩

theorem setupTaskDependencies_nil (deps : List DepReq) :
    setupTaskDependencies [] deps = [] := by
  induction deps with
  | nil => rfl
  | cons d ds ih =>
      have h : addDependencyEdge [] d = [] := rfl
      simp only [setupTaskDependencies, List.foldl_cons, h]
      exact ih

theorem analyzeAndCreateTasks_empty (req : Request) (clock : Nat)
    (hp : req.prompt = none) (hm : req.messages = none) (ht : req.tools = none) :
    (analyzeAndCreateTasks req clock).1 = [] := by
  unfold analyzeAndCreateTasks
  rw [hp, hm, ht]
  cases hd : req.dependencies with
  | none => rfl
  | some deps => simpa using setupTaskDependencies_nil deps

theorem executeWorkflow_empty_tasks (collab : Collab) (w : Workflow)
    (clock : Nat) (h : w.tasks = []) :
    (executeWorkflow collab (Except.ok ()) w clock).result = Except.ok []
    ∧ (executeWorkflow collab (Except.ok ()) w clock).wf.status = Status.completed := by
  unfold executeWorkflow executeWorkflowCore
  simp [wfLoop, h, finallyStore]

/-- C10: a request with no prompt, no messages and no tools array yields a
workflow with an empty task list, and executeWorkflow on it immediately
returns an empty result map with the workflow completed, without raising the
empty-ready-set error. -/
theorem c10_empty_request (collab : Collab) (store : Except String Unit) (req : Request)
    (clock eclock : Nat) (hp : req.prompt = none) (hm : req.messages = none)
    (ht : req.tools = none) (hstore : store = Except.ok ()) :
    ((createWorkflow store req clock).wf.tasks = [])
    ∧ ((executeWorkflow collab store (createWorkflow store req clock).wf eclock).result
        = Except.ok [])
    ∧ ((executeWorkflow collab store (createWorkflow store req clock).wf eclock).wf.status
        = Status.completed)
    ∧ ((executeWorkflow collab store (createWorkflow store req clock).wf eclock).result
        ≠ Except.error circularDependencyMsg) := by
  subst hstore
  have htasks : (createWorkflow (Except.ok ()) req clock).wf.tasks = [] := by
    unfold createWorkflow
    exact analyzeAndCreateTasks_empty req (clock + 1) hp hm ht
  have hrun := executeWorkflow_empty_tasks collab
    (createWorkflow (Except.ok ()) req clock).wf eclock htasks
  refine ⟨htasks, hrun.1, hrun.2, ?_⟩
  rw [hrun.1]
  intro hcontra
  cases hcontra

/-- C10 witness. -/
theorem c10_witness :
    (executeWorkflow okCollab (Except.ok ())
        (createWorkflow (Except.ok ()) emptyReq 0).wf 5).wf.status = Status.completed :=
  (c10_empty_request okCollab (Except.ok ()) emptyReq 0 5 rfl rfl rfl rfl).2.2.1

end Gateway

namespace Gateway

theorem executeTask_fail_retry {collab : Collab} {t : Task} {e : String} (clock : Nat)
    (hfail : collab t.id t.retries = Except.error e) (hr : t.retries < t.maxRetries) :
    executeTask collab clock t =
      { task := failedOnceTask t clock e, outcome := Except.error e, clock := clock + 2 } := by
  simp only [executeTask, hfail, failedOnceTask]
  rw [if_pos hr]

theorem wfLoop_single_fail {collab : Collab} {t : Task} {e : String} (clock : Nat)
    (hdep : t.dependencies = none)
    (hfail : collab t.id t.retries = Except.error e) (hr : t.retries < t.maxRetries) :
    wfLoop collab 2 [t] [] [] clock [] =
      some ([failedOnceTask t clock e],
            clock + 2,
            [{ tasksBefore := [t], executedBefore := [], ready := [t] }],
            Except.error (taskFailedMsg t.id e)) := by
  have hready : readyTasks [t] [] = [t] := by
    simp [readyTasks, memStr, depsSatisfied, hdep]
  simp only [wfLoop]
  rw [if_pos (by simp)]
  rw [hready]
  simp only [execBatch, executeTask_fail_retry clock hfail hr]
  simp [applyUpdates, updateTask, foldBatch, addExecuted, memStr, taskFailedMsg,
    failedOnceTask]

/-- C3 counterexample: for the Scenario C workflow (one task with
maxRetries 2 whose collaborator call fails on the first two attempts and
would succeed on the third), executeWorkflow fails the workflow on the first
failure instead of re-running the task: the task ends pending with
retries 1, never completed, and the workflow ends failed. -/
theorem c3_counterexample :
    ((executeWorkflow failTwiceCollab (Except.ok ()) retryWf 0).result
        = Except.error (taskFailedMsg "t" "boom"))
    ∧ ((executeWorkflow failTwiceCollab (Except.ok ()) retryWf 0).wf.status = Status.failed)
    ∧ ((executeWorkflow failTwiceCollab (Except.ok ()) retryWf 0).wf.tasks.map
        (fun u => (u.status, u.retries)) = [(Status.pending, 1)]) :=
  ⟨rfl, rfl, rfl⟩

/-- C3 amended: when the collaborator call of a task fails on its first
attempt, the executor does flip the task back to pending with retries
incremented to 1, but executeWorkflow treats the rejection as fatal: the
workflow fails immediately with the task error, the task is dispatched only
once (no re-run), and it never reaches completed in that execution. -/
theorem c3_first_failure_fails_workflow (collab : Collab) (store : Except String Unit)
    (w : Workflow) (t : Task) (clock : Nat) (e : String)
    (hw : w.tasks = [t]) (hdep : t.dependencies = none)
    (hfail : collab t.id t.retries = Except.error e) (hr : t.retries < t.maxRetries)
    (hstore : store = Except.ok ()) :
    ((executeWorkflow collab store w clock).result = Except.error (taskFailedMsg t.id e))
    ∧ ((executeWorkflow collab store w clock).wf.status = Status.failed)
    ∧ ((executeWorkflow collab store w clock).wf.tasks.map Task.status = [Status.pending])
    ∧ ((executeWorkflow collab store w clock).wf.tasks.map Task.retries = [t.retries + 1])
    ∧ ((executeWorkflow collab store w clock).trace.length = 1) := by
  subst hstore
  have hloop := wfLoop_single_fail (clock + 1) hdep hfail hr
  unfold executeWorkflow executeWorkflowCore
  simp only [hw, List.length_cons, List.length_nil]
  rw [hloop]
  simp [finallyStore, failedOnceTask]

/-- C3 witness. -/
theorem c3_witness :
    (executeWorkflow failTwiceCollab (Except.ok ()) retryWf 5).wf.status = Status.failed :=
  (c3_first_failure_fails_workflow failTwiceCollab (Except.ok ()) retryWf retryTask 5 "boom"
    rfl rfl rfl (by decide) rfl).2.1

/-- C5 counterexample: in executeWorkflow the ready set handed to the
executor keeps creation order and is not sorted by priority weight: with a
low task created before a critical one, both ready, the single scheduling
pass dispatches the low task first. -/
theorem c5_counterexample :
    ((executeWorkflow okCollab (Except.ok ()) lowCritWf 0).trace.map
        (fun ev => ev.ready.map Task.id) = [["tLow", "tCrit"]])
    ∧ ((executeWorkflow okCollab (Except.ok ()) lowCritWf 0).trace.map
        (fun ev => isSortedByWeightDesc ev.ready) = [false]) :=
  ⟨rfl, rfl⟩

theorem bucket_drop (l : List Task) (pr : Priority) (k : Nat)
    (hne : getPriorityWeight pr ≠ k) :
    (l.filter (fun t => getPriorityWeight t.priority == k)).filter
        (fun t => t.priority == pr) = [] := by
  rw [List.filter_filter]
  apply List.filter_eq_nil_iff.mpr
  intro a _
  simp only [Bool.and_eq_true, beq_iff_eq, not_and]
  intro hap hk
  rw [hap] at hk
  exact hne hk

theorem bucket_keep (l : List Task) (pr : Priority) (k : Nat)
    (hk : getPriorityWeight pr = k) :
    (l.filter (fun t => getPriorityWeight t.priority == k)).filter
        (fun t => t.priority == pr) = l.filter (fun t => t.priority == pr) := by
  rw [List.filter_filter]
  apply List.filter_congr
  intro a _
  by_cases hap : a.priority = pr
  · simp [hap, hk]
  · simp [hap]

theorem sortByPriorityDesc_stable (l : List Task) (pr : Priority) :
    (sortByPriorityDesc l).filter (fun t => t.priority == pr)
      = l.filter (fun t => t.priority == pr) := by
  unfold sortByPriorityDesc
  rw [List.filter_append, List.filter_append, List.filter_append]
  cases pr with
  | low =>
      rw [bucket_drop l Priority.low 4 (by decide), bucket_drop l Priority.low 3 (by decide),
          bucket_drop l Priority.low 2 (by decide), bucket_keep l Priority.low 1 rfl]
      simp
  | medium =>
      rw [bucket_drop l Priority.medium 4 (by decide),
          bucket_drop l Priority.medium 3 (by decide),
          bucket_keep l Priority.medium 2 rfl, bucket_drop l Priority.medium 1 (by decide)]
      simp
  | high =>
      rw [bucket_drop l Priority.high 4 (by decide), bucket_keep l Priority.high 3 rfl,
          bucket_drop l Priority.high 2 (by decide), bucket_drop l Priority.high 1 (by decide)]
      simp
  | critical =>
      rw [bucket_keep l Priority.critical 4 rfl, bucket_drop l Priority.critical 3 (by decide),
          bucket_drop l Priority.critical 2 (by decide),
          bucket_drop l Priority.critical 1 (by decide)]
      simp

theorem weight_of_mem_bucket {l : List Task} {k : Nat} {t : Task}
    (h : t ∈ l.filter (fun u => getPriorityWeight u.priority == k)) :
    getPriorityWeight t.priority = k := by
  have := (List.mem_filter.mp h).2
  simpa using this

theorem bucket_pairwise (l : List Task) (k : Nat) :
    (l.filter (fun u => getPriorityWeight u.priority == k)).Pairwise
      (fun a b => getPriorityWeight b.priority ≤ getPriorityWeight a.priority) := by
  apply List.pairwise_of_forall_mem_list
  intro a ha b hb
  rw [weight_of_mem_bucket ha, weight_of_mem_bucket hb]

theorem sortByPriorityDesc_sorted (l : List Task) :
    (sortByPriorityDesc l).Pairwise
      (fun a b => getPriorityWeight b.priority ≤ getPriorityWeight a.priority) := by
  unfold sortByPriorityDesc
  rw [List.pairwise_append, List.pairwise_append, List.pairwise_append]
  refine ⟨⟨⟨bucket_pairwise l 4, bucket_pairwise l 3, ?_⟩, bucket_pairwise l 2, ?_⟩,
      bucket_pairwise l 1, ?_⟩
  · intro a ha b hb
    rw [weight_of_mem_bucket ha, weight_of_mem_bucket hb]
    omega
  · intro a ha b hb
    rcases List.mem_append.mp ha with h4 | h3
    · rw [weight_of_mem_bucket h4, weight_of_mem_bucket hb]; omega
    · rw [weight_of_mem_bucket h3, weight_of_mem_bucket hb]; omega
  · intro a ha b hb
    rw [weight_of_mem_bucket hb]
    rcases List.mem_append.mp ha with h43 | h2
    · rcases List.mem_append.mp h43 with h4 | h3
      · rw [weight_of_mem_bucket h4]; omega
      · rw [weight_of_mem_bucket h3]; omega
    · rw [weight_of_mem_bucket h2]; omega

theorem sortByPriorityDesc_perm (l : List Task) : (sortByPriorityDesc l).Perm l := by
  induction l with
  | nil => simp [sortByPriorityDesc]
  | cons a l ih =>
      cases ha : a.priority with
      | critical =>
          simp only [sortByPriorityDesc, List.filter_cons, ha, getPriorityWeight]
          simp only [Nat.reduceBEq, beq_self_eq_true, if_true, if_false, List.cons_append]
          exact ih.cons a
      | high =>
          simp only [sortByPriorityDesc, List.filter_cons, ha, getPriorityWeight]
          simp only [Nat.reduceBEq, beq_self_eq_true, if_true, if_false, List.cons_append]
          exact (List.Perm.append_right _ (List.Perm.append_right _ List.perm_middle)).trans
            (ih.cons a)
      | medium =>
          simp only [sortByPriorityDesc, List.filter_cons, ha, getPriorityWeight]
          simp only [Nat.reduceBEq, beq_self_eq_true, if_true, if_false, List.cons_append]
          exact (List.Perm.append_right _ List.perm_middle).trans (ih.cons a)
      | low =>
          simp only [sortByPriorityDesc, List.filter_cons, ha, getPriorityWeight]
          simp only [Nat.reduceBEq, beq_self_eq_true, if_true, if_false, List.cons_append]
          exact List.perm_middle.trans (ih.cons a)

/-- C5 amended: the autonomous processTaskQueue pass does hand tasks to the
executor in priority weight order, descending, with a stable sort (ties keep
map insertion order): the dispatch list is pendingSorted, whose sort is a
permutation, sorted by weight descending, and stable per priority class.
executeWorkflow, by contrast, dispatches each ready set in creation (list)
order: its ready-set filter is an order-preserving sublist of
workflow.tasks, with no priority sorting. -/
theorem c5_queue_sorted_workflow_unsorted (l : List Task) (tasks : List Task)
    (executed : List String) (s : OrchState) :
    ((sortByPriorityDesc l).Pairwise
      (fun a b => getPriorityWeight b.priority ≤ getPriorityWeight a.priority))
    ∧ ((sortByPriorityDesc l).Perm l)
    ∧ (∀ pr : Priority, (sortByPriorityDesc l).filter (fun t => t.priority == pr)
        = l.filter (fun t => t.priority == pr))
    ∧ ((readyTasks tasks executed).Sublist tasks)
    ∧ (pendingSorted s.tasks
        = sortByPriorityDesc ((s.tasks.map Prod.snd).filter
            (fun t => t.status == Status.pending))) :=
  ⟨sortByPriorityDesc_sorted l, sortByPriorityDesc_perm l,
    sortByPriorityDesc_stable l, List.filter_sublist tasks, rfl⟩

end Gateway

namespace Gateway

theorem reachable_collections_empty {s : OrchState} (hs : Reachable s) :
    s.tasks = [] ∧ s.taskQueue = [] ∧ s.runningTasks = [] := by
  induction hs with
  | init cfg => exact ⟨rfl, rfl, rfl⟩
  | step op hs ih =>
      obtain ⟨h1, h2, h3⟩ := ih
      cases op with
      | createWf store req => exact ⟨h1, h2, h3⟩
      | execWf collab store wid =>
          simp only [applyOp]
          cases assocGet _ wid with
          | none => exact ⟨h1, h2, h3⟩
          | some w => exact ⟨h1, h2, h3⟩
      | queuePass collab =>
          refine ⟨?_, h2, h3⟩
          simp [applyOp, pendingSorted, sortByPriorityDesc, h1]
      | healPass now =>
          refine ⟨?_, h2, ?_⟩ <;> simp [applyOp, h1, h3]
      | scalePass => exact ⟨h1, h2, h3⟩

theorem queuePass_nil {s : OrchState} (h : s.tasks = []) (collab : Collab) :
    applyOp s (Op.queuePass collab) = s := by
  obtain ⟨tasks, wfs, running, queue, maxc, tmo, clk⟩ := s
  dsimp only at h
  subst h
  simp [applyOp, pendingSorted, sortByPriorityDesc]

theorem healPass_nil {s : OrchState} (h1 : s.tasks = []) (h3 : s.runningTasks = [])
    (now : Nat) : applyOp s (Op.healPass now) = s := by
  obtain ⟨tasks, wfs, running, queue, maxc, tmo, clk⟩ := s
  dsimp only at h1 h3
  subst h1
  subst h3
  rfl

/-- C9: createWorkflow inserts the tasks it creates only into the workflow
record, never into the orchestrator task map: after any reachable state
performs a createWorkflow, getTask returns none for every created task id,
listTasks is empty under every filter, and the queue-processing pass and the
self-healing sweep, which iterate only the task map, are identities. -/
theorem c9_tasks_not_registered (s : OrchState) (hs : Reachable s)
    (store : Except String Unit) (req : Request) (q : Option Status)
    (collab : Collab) (now : Nat) :
    (∀ t ∈ (createWorkflow store req s.clock).wf.tasks,
        getTask (applyOp s (Op.createWf store req)) t.id = none)
    ∧ (listTasks (applyOp s (Op.createWf store req)) q = [])
    ∧ (applyOp (applyOp s (Op.createWf store req)) (Op.queuePass collab)
        = applyOp s (Op.createWf store req))
    ∧ (applyOp (applyOp s (Op.createWf store req)) (Op.healPass now)
        = applyOp s (Op.createWf store req)) := by
  have hs2 : Reachable (applyOp s (Op.createWf store req)) :=
    Reachable.step (Op.createWf store req) hs
  obtain ⟨h1, h2, h3⟩ := reachable_collections_empty hs2
  refine ⟨?_, ?_, queuePass_nil h1 collab, healPass_nil h1 h3 now⟩
  · intro t _
    simp [getTask, assocGet, h1]
  · cases q <;> simp [listTasks, h1]

/-- C9 witness. -/
theorem c9_witness :
    listTasks (applyOp (initState {}) (Op.createWf (Except.ok ()) promptReq)) none = [] :=
  (c9_tasks_not_registered (initState {}) (Reachable.init {}) (Except.ok ()) promptReq none
    okCollab 0).2.1

theorem mem_readyTasks {tasks : List Task} {executed : List String} {t : Task}
    (h : t ∈ readyTasks tasks executed) :
    t ∈ tasks ∧ memStr executed t.id = false ∧ depsSatisfied executed t = true := by
  have h2 := List.mem_filter.mp h
  have h3 := h2.2
  simp only [Bool.and_eq_true, Bool.not_eq_true'] at h3
  exact ⟨h2.1, h3.1, h3.2⟩

theorem readyTasks_ids_nodup (tasks : List Task) (executed : List String)
    (hnd : (tasks.map Task.id).Nodup) :
    ((readyTasks tasks executed).map Task.id).Nodup :=
  hnd.sublist ((List.filter_sublist tasks).map Task.id)

theorem readyTasks_ids_subset (tasks : List Task) (executed : List String) {i : String}
    (h : i ∈ (readyTasks tasks executed).map Task.id) : i ∈ tasks.map Task.id := by
  obtain ⟨t, ht, rfl⟩ := List.mem_map.mp h
  exact List.mem_map_of_mem Task.id (mem_readyTasks ht).1

theorem depsSatisfied_mem {executed : List String} {t : Task}
    (h : depsSatisfied executed t = true) :
    ∀ d ∈ t.dependencies.getD [], d ∈ executed := by
  intro d hd
  cases ht : t.dependencies with
  | none => rw [ht] at hd; cases hd
  | some deps =>
      rw [ht] at hd
      simp only [Option.getD_some] at hd
      unfold depsSatisfied at h
      rw [ht] at h
      rw [List.all_eq_true] at h
      exact (memStr_iff executed d).mp (h d hd)

theorem updateTask_map_id (tasks : List Task) (t : Task) :
    (updateTask tasks t).map Task.id = tasks.map Task.id := by
  induction tasks with
  | nil => rfl
  | cons u us ih =>
      simp only [updateTask, List.map_cons] at ih ⊢
      rw [ih]
      by_cases h : u.id = t.id
      · rw [if_pos h, h]
      · rw [if_neg h]

theorem updateTask_mem_of_ne {u t : Task} {tasks : List Task}
    (hu : u ∈ tasks) (hne : u.id ≠ t.id) : u ∈ updateTask tasks t := by
  have h : (if u.id = t.id then t else u) ∈ updateTask tasks t :=
    List.mem_map_of_mem (fun v => if v.id = t.id then t else v) hu
  rw [if_neg hne] at h
  exact h

theorem updateTask_mem_self {tasks : List Task} {t : Task}
    (h : t.id ∈ tasks.map Task.id) : t ∈ updateTask tasks t := by
  obtain ⟨u, hu, hid⟩ := List.mem_map.mp h
  have h2 : (if u.id = t.id then t else u) ∈ updateTask tasks t :=
    List.mem_map_of_mem (fun v => if v.id = t.id then t else v) hu
  rw [if_pos hid] at h2
  exact h2

theorem applyUpdates_map_id (upds : List Task) : ∀ tasks : List Task,
    (applyUpdates tasks upds).map Task.id = tasks.map Task.id := by
  induction upds with
  | nil => intro tasks; rfl
  | cons v vs ih =>
      intro tasks
      show (applyUpdates (updateTask tasks v) vs).map Task.id = tasks.map Task.id
      rw [ih (updateTask tasks v), updateTask_map_id]

theorem applyUpdates_length (upds tasks : List Task) :
    (applyUpdates tasks upds).length = tasks.length := by
  have h := congrArg List.length (applyUpdates_map_id upds tasks)
  simpa using h

theorem applyUpdates_mem_of_ne {u : Task} (upds : List Task) : ∀ {tasks : List Task},
    u ∈ tasks → (∀ v ∈ upds, u.id ≠ v.id) → u ∈ applyUpdates tasks upds := by
  induction upds with
  | nil => intro tasks hu _; exact hu
  | cons v vs ih =>
      intro tasks hu hne
      show u ∈ applyUpdates (updateTask tasks v) vs
      exact ih (updateTask_mem_of_ne hu (hne v (List.mem_cons_self v vs)))
        (fun w hw => hne w (List.mem_cons_of_mem v hw))

theorem applyUpdates_mem_self (upds : List Task) : ∀ {tasks : List Task} {v : Task},
    (upds.map Task.id).Nodup → v ∈ upds → v.id ∈ tasks.map Task.id →
    v ∈ applyUpdates tasks upds := by
  induction upds with
  | nil => intro tasks v _ hv _; cases hv
  | cons u us ih =>
      intro tasks v hnd hv hid
      simp only [List.map_cons, List.nodup_cons] at hnd
      rcases List.mem_cons.mp hv with rfl | hv2
      · show v ∈ applyUpdates (updateTask tasks v) us
        apply applyUpdates_mem_of_ne us (updateTask_mem_self hid)
        intro w hw heq
        exact hnd.1 (heq ▸ List.mem_map_of_mem Task.id hw)
      · show v ∈ applyUpdates (updateTask tasks u) us
        apply ih hnd.2 hv2
        rw [updateTask_map_id]
        exact hid

theorem execBatch_map_id (collab : Collab) : ∀ (c : Nat) (l : List Task),
    (execBatch collab c l).1.map (fun p => p.1.id) = l.map Task.id := by
  intro c l
  induction l generalizing c with
  | nil => rfl
  | cons t ts ih =>
      simp only [execBatch, List.map_cons]
      rw [ih]
      simp [executeTask_id]

theorem execBatch_mem (collab : Collab) : ∀ (l : List Task) (c : Nat)
    (p : Task × Except String String), p ∈ (execBatch collab c l).1 →
    ∃ t ∈ l, ∃ k, p = ((executeTask collab k t).task, (executeTask collab k t).outcome) := by
  intro l
  induction l with
  | nil => intro c p hp; simp [execBatch] at hp
  | cons t ts ih =>
      intro c p hp
      simp only [execBatch, List.mem_cons] at hp
      rcases hp with rfl | hp2
      · exact ⟨t, List.mem_cons_self t ts, c, rfl⟩
      · obtain ⟨u, hu, k, hk⟩ := ih _ p hp2
        exact ⟨u, List.mem_cons_of_mem t hu, k, hk⟩

theorem execBatch_all_ok {collab : Collab} (hok : ∀ i n, ∃ v, collab i n = Except.ok v)
    (c : Nat) (l : List Task) (p : Task × Except String String)
    (hp : p ∈ (execBatch collab c l).1) : ∃ v, p.2 = Except.ok v := by
  obtain ⟨t, _, k, rfl⟩ := execBatch_mem collab l c p hp
  obtain ⟨v, hv⟩ := hok t.id t.retries
  exact ⟨v, by rw [executeTask_outcome, hv]⟩

theorem executeTask_ok_status {collab : Collab} {clock : Nat} {t : Task}
    (h : ∃ v, (executeTask collab clock t).outcome = Except.ok v) :
    (executeTask collab clock t).task.status = Status.completed := by
  obtain ⟨v, hv⟩ := h
  rw [executeTask_outcome] at hv
  exact (executeTask_ok_fields clock hv).1

theorem foldBatch_none_all_ok (outs : List (Task × Except String String)) :
    ∀ (ex : List String) (res : List (String × String)),
    (foldBatch outs ex res).2.2 = none → ∀ p ∈ outs, ∃ v, p.2 = Except.ok v := by
  induction outs with
  | nil => intro ex res _ p hp; cases hp
  | cons q rest ih =>
      intro ex res h p hp
      obtain ⟨t, out⟩ := q
      cases out with
      | ok v =>
          rcases List.mem_cons.mp hp with rfl | hp2
          · exact ⟨v, rfl⟩
          · exact ih _ _ h p hp2
      | error e =>
          exfalso
          simp [foldBatch] at h

theorem foldBatch_all_ok_none (outs : List (Task × Except String String)) :
    ∀ (ex : List String) (res : List (String × String)),
    (∀ p ∈ outs, ∃ v, p.2 = Except.ok v) →
    (foldBatch outs ex res).2.2 = none
    ∧ (foldBatch outs ex res).1 = outs.foldl (fun e p => addExecuted e p.1.id) ex := by
  induction outs with
  | nil => intro ex res _; exact ⟨rfl, rfl⟩
  | cons q rest ih =>
      intro ex res hok
      obtain ⟨t, out⟩ := q
      cases out with
      | error e =>
          exfalso
          obtain ⟨v, hv⟩ := hok (t, Except.error e) (List.mem_cons_self _ _)
          simp at hv
      | ok v =>
          exact ih _ _ (fun p hp => hok p (List.mem_cons_of_mem _ hp))

theorem mem_addExecuted {ex : List String} {i j : String} :
    j ∈ addExecuted ex i ↔ j ∈ ex ∨ j = i := by
  unfold addExecuted
  split
  · rename_i h
    have hi := (memStr_iff ex i).mp h
    constructor
    · exact Or.inl
    · rintro (hj | rfl)
      · exact hj
      · exact hi
  · simp [List.mem_append]

theorem addExecuted_length_le (ex : List String) (i : String) :
    ex.length ≤ (addExecuted ex i).length := by
  unfold addExecuted
  split
  · exact Nat.le_refl _
  · simp

theorem addExecuted_nodup {ex : List String} (h : ex.Nodup) (i : String) :
    (addExecuted ex i).Nodup := by
  unfold addExecuted
  split
  · exact h
  · rename_i hm
    have hni : i ∉ ex := not_mem_of_memStr_false (by simpa using hm)
    simp [List.nodup_append, h, hni]

theorem foldAdd_mem (outs : List (Task × Except String String)) : ∀ (ex : List String)
    (j : String), j ∈ outs.foldl (fun e p => addExecuted e p.1.id) ex ↔
      j ∈ ex ∨ j ∈ outs.map (fun p => p.1.id) := by
  induction outs with
  | nil => intro ex j; simp
  | cons q rest ih =>
      intro ex j
      rw [List.foldl_cons, ih, mem_addExecuted]
      simp only [List.map_cons, List.mem_cons]
      tauto

theorem foldAdd_length_le (outs : List (Task × Except String String)) : ∀ ex : List String,
    ex.length ≤ (outs.foldl (fun e p => addExecuted e p.1.id) ex).length := by
  induction outs with
  | nil => intro ex; exact Nat.le_refl _
  | cons q rest ih =>
      intro ex
      calc ex.length ≤ (addExecuted ex q.1.id).length := addExecuted_length_le ex q.1.id
        _ ≤ _ := ih (addExecuted ex q.1.id)

theorem foldAdd_length_lt (q : Task × Except String String)
    (rest : List (Task × Except String String)) (ex : List String) (hq : q.1.id ∉ ex) :
    ex.length < ((q :: rest).foldl (fun e p => addExecuted e p.1.id) ex).length := by
  rw [List.foldl_cons]
  have h1 : (addExecuted ex q.1.id).length = ex.length + 1 := by
    unfold addExecuted
    rw [if_neg (fun hmem => hq ((memStr_iff ex q.1.id).mp hmem))]
    simp
  have h2 := foldAdd_length_le rest (addExecuted ex q.1.id)
  omega

theorem foldAdd_nodup (outs : List (Task × Except String String)) : ∀ {ex : List String},
    ex.Nodup → (outs.foldl (fun e p => addExecuted e p.1.id) ex).Nodup := by
  induction outs with
  | nil => intro ex h; exact h
  | cons q rest ih => intro ex h; exact ih (addExecuted_nodup h q.1.id)

end Gateway

namespace Gateway

theorem wfLoop_isSome (collab : Collab) : ∀ (fuel : Nat) (tasks : List Task)
    (executed : List String) (results : List (String × String)) (clock : Nat)
    (trace : List BatchEvent), 0 < fuel → tasks.length < executed.length + fuel →
    (wfLoop collab fuel tasks executed results clock trace).isSome = true := by
  intro fuel
  induction fuel with
  | zero => intro tasks executed results clock trace h0 _; omega
  | succ f ih =>
      intro tasks executed results clock trace _ hlen
      rw [wfLoop]
      by_cases hguard : executed.length < tasks.length
      · rw [if_pos hguard]
        cases hready : readyTasks tasks executed with
        | nil => rfl
        | cons rt rts =>
            dsimp only
            have hrtmem : rt ∈ readyTasks tasks executed := by
              rw [hready]; exact List.mem_cons_self rt rts
            have hrtnotex : rt.id ∉ executed :=
              not_mem_of_memStr_false (mem_readyTasks hrtmem).2.1
            cases hf : (foldBatch (execBatch collab clock (rt :: rts)).1 executed results).2.2 with
            | some e => rfl
            | none =>
                have hall := foldBatch_none_all_ok _ executed results hf
                have hex2 := (foldBatch_all_ok_none _ executed results hall).2
                have hlt : executed.length <
                    ((foldBatch (execBatch collab clock (rt :: rts)).1 executed results).1).length := by
                  rw [hex2]
                  rw [show (execBatch collab clock (rt :: rts)).1 =
                    ((executeTask collab clock rt).task, (executeTask collab clock rt).outcome)
                      :: (execBatch collab (executeTask collab clock rt).clock rts).1 from rfl]
                  apply foldAdd_length_lt
                  rw [executeTask_id]
                  exact hrtnotex
                apply ih
                · omega
                · rw [applyUpdates_length]
                  omega
      · rw [if_neg hguard]
        rfl

theorem batch_preserves_completed {collab : Collab} {tasks : List Task}
    {executed : List String} {results : List (String × String)} {clock : Nat}
    {rt : Task} {rts : List Task}
    (hnd : (tasks.map Task.id).Nodup)
    (hexec : ExecutedCompleted tasks executed)
    (hready : readyTasks tasks executed = rt :: rts)
    (hf : (foldBatch (execBatch collab clock (rt :: rts)).1 executed results).2.2 = none) :
    ExecutedCompleted
      (applyUpdates tasks ((execBatch collab clock (rt :: rts)).1.map Prod.fst))
      ((foldBatch (execBatch collab clock (rt :: rts)).1 executed results).1) := by
  intro i hi
  have hall := foldBatch_none_all_ok _ executed results hf
  have hex2 := (foldBatch_all_ok_none _ executed results hall).2
  rw [hex2, foldAdd_mem] at hi
  have hidsmap : (execBatch collab clock (rt :: rts)).1.map (fun p => p.1.id)
      = (rt :: rts).map Task.id := execBatch_map_id collab clock (rt :: rts)
  have hreadyid : ∀ j ∈ (rt :: rts).map Task.id, j ∉ executed := by
    intro j hj
    obtain ⟨u, hu, rfl⟩ := List.mem_map.mp hj
    have humem : u ∈ readyTasks tasks executed := by rw [hready]; exact hu
    exact not_mem_of_memStr_false (mem_readyTasks humem).2.1
  rcases hi with hi | hi
  · obtain ⟨u, hu, huid, hust⟩ := hexec i hi
    refine ⟨u, ?_, huid, hust⟩
    apply applyUpdates_mem_of_ne _ hu
    intro v hv heq
    have hvid : v.id ∈ (execBatch collab clock (rt :: rts)).1.map (fun p => p.1.id) := by
      obtain ⟨p, hp, rfl⟩ := List.mem_map.mp hv
      exact List.mem_map_of_mem _ hp
    rw [hidsmap] at hvid
    exact hreadyid v.id hvid (by rw [← heq, huid]; exact hi)
  · obtain ⟨p, hp, rfl⟩ := List.mem_map.mp hi
    obtain ⟨t0, ht0, k, hpk⟩ := execBatch_mem collab (rt :: rts) clock p hp
    have hok2 : ∃ v, (executeTask collab k t0).outcome = Except.ok v := by
      obtain ⟨v, hv⟩ := hall p hp
      rw [hpk] at hv
      exact ⟨v, hv⟩
    have hstat0 : (executeTask collab k t0).task.status = Status.completed :=
      executeTask_ok_status hok2
    have hstat : p.1.status = Status.completed := by
      rw [hpk]
      exact hstat0
    refine ⟨p.1, ?_, rfl, hstat⟩
    apply applyUpdates_mem_self
    · have hmapmap : ((execBatch collab clock (rt :: rts)).1.map Prod.fst).map Task.id
          = (execBatch collab clock (rt :: rts)).1.map (fun p => p.1.id) := by
        rw [List.map_map]
        rfl
      rw [hmapmap, hidsmap]
      exact hready ▸ readyTasks_ids_nodup tasks executed hnd
    · exact List.mem_map_of_mem Prod.fst hp
    · refine readyTasks_ids_subset tasks executed ?_
      rw [hready]
      have : p.1.id ∈ (execBatch collab clock (rt :: rts)).1.map (fun q => q.1.id) :=
        List.mem_map_of_mem _ hp
      rw [hidsmap] at this
      exact this

theorem wfLoop_trace_good (collab : Collab) : ∀ (fuel : Nat) (tasks : List Task)
    (executed : List String) (results : List (String × String)) (clock : Nat)
    (trace : List BatchEvent)
    (out : List Task × Nat × List BatchEvent × Except String (List (String × String))),
    (tasks.map Task.id).Nodup →
    ExecutedCompleted tasks executed →
    (∀ ev ∈ trace, goodEvent ev) →
    wfLoop collab fuel tasks executed results clock trace = some out →
    ∀ ev ∈ out.2.2.1, goodEvent ev := by
  intro fuel
  induction fuel with
  | zero => intro tasks executed results clock trace out _ _ _ h; cases h
  | succ f ih =>
      intro tasks executed results clock trace out hnd hexec htrace hrun
      rw [wfLoop] at hrun
      by_cases hguard : executed.length < tasks.length
      · rw [if_pos hguard] at hrun
        cases hready : readyTasks tasks executed with
        | nil =>
            rw [hready] at hrun
            dsimp only at hrun
            cases hrun
            exact fun ev hev => htrace ev hev
        | cons rt rts =>
            rw [hready] at hrun
            dsimp only at hrun
            have hevgood : goodEvent ⟨tasks, executed, rt :: rts⟩ := by
              intro t ht
              have htmem : t ∈ readyTasks tasks executed := by rw [hready]; exact ht
              have hds := (mem_readyTasks htmem).2.2
              intro d hd
              exact hexec d (depsSatisfied_mem hds d hd)
            have htrace2 : ∀ ev ∈ trace ++ [(⟨tasks, executed, rt :: rts⟩ : BatchEvent)],
                goodEvent ev := by
              intro ev hev
              rcases List.mem_append.mp hev with h | h
              · exact htrace ev h
              · rw [List.mem_singleton] at h
                subst h
                exact hevgood
            cases hf : (foldBatch (execBatch collab clock (rt :: rts)).1 executed results).2.2 with
            | none =>
                rw [hf] at hrun
                exact ih _ _ _ _ _ out (by rw [applyUpdates_map_id]; exact hnd)
                  (batch_preserves_completed hnd hexec hready hf) htrace2 hrun
            | some e =>
                rw [hf] at hrun
                cases hrun
                exact fun ev hev => htrace2 ev hev
      · rw [if_neg hguard] at hrun
        cases hrun
        exact fun ev hev => htrace ev hev

/-- C1: in every executeWorkflow run on a workflow with distinct task ids,
every scheduling pass dispatches only tasks whose dependency ids all resolve
to completed tasks of the workflow at the start of that pass, so no task
leaves pending (nor has startedAt stamped) while any dependency is not
completed; and in every reachable orchestrator state the autonomous
task-queue pass is the identity, because the task map is never populated, so
it transitions no task either. -/
theorem c1_no_start_before_deps (collab : Collab) (store : Except String Unit)
    (w : Workflow) (clock : Nat) (hnd : (w.tasks.map Task.id).Nodup) :
    (∀ ev ∈ (executeWorkflow collab store w clock).trace, goodEvent ev)
    ∧ (∀ s : OrchState, Reachable s → ∀ qc : Collab, applyOp s (Op.queuePass qc) = s) := by
  constructor
  · intro ev hev
    have htr : (executeWorkflow collab store w clock).trace
        = (executeWorkflowCore collab w clock).2.2.1 := rfl
    rw [htr] at hev
    unfold executeWorkflowCore at hev
    dsimp only at hev
    cases hw : wfLoop collab (w.tasks.length + 1) w.tasks [] [] (clock + 1) [] with
    | none =>
        rw [hw] at hev
        dsimp only at hev
        cases hev
    | some out =>
        obtain ⟨tasks2, c2, tr, r⟩ := out
        rw [hw] at hev
        have hev2 : ev ∈ tr := by
          cases r with
          | ok results => exact hev
          | error e => exact hev
        exact wfLoop_trace_good collab (w.tasks.length + 1) w.tasks [] [] (clock + 1) []
          (tasks2, c2, tr, r) hnd (fun i hi => absurd hi (List.not_mem_nil i))
          (fun e he => absurd he (List.not_mem_nil e)) hw ev hev2
  · intro s hs qc
    exact queuePass_nil (reachable_collections_empty hs).1 qc

/-- C1 witness. -/
theorem c1_witness :
    applyOp (initState {}) (Op.queuePass okCollab) = initState {} :=
  (c1_no_start_before_deps okCollab (Except.ok ()) chainWf 0 (by decide)).2
    (initState {}) (Reachable.init {}) okCollab

end Gateway

namespace Gateway

theorem nodup_id_eq {tasks : List Task} (hnd : (tasks.map Task.id).Nodup)
    {a b : Task} (ha : a ∈ tasks) (hb : b ∈ tasks) (h : a.id = b.id) : a = b := by
  induction tasks with
  | nil => cases ha
  | cons u us ih =>
      simp only [List.map_cons, List.nodup_cons] at hnd
      rcases List.mem_cons.mp ha with rfl | ha2 <;> rcases List.mem_cons.mp hb with rfl | hb2
      · rfl
      · exfalso
        apply hnd.1
        rw [h]
        exact List.mem_map_of_mem Task.id hb2
      · exfalso
        apply hnd.1
        rw [← h]
        exact List.mem_map_of_mem Task.id ha2
      · exact ih hnd.2 ha2 hb2

theorem wfLoop_blocked (collab : Collab) (C : List Task) (allIds : List String)
    (hok : ∀ i n, ∃ v, collab i n = Except.ok v) :
    ∀ (fuel : Nat) (tasks : List Task) (executed : List String)
    (results : List (String × String)) (clock : Nat) (trace : List BatchEvent)
    (out : List Task × Nat × List BatchEvent × Except String (List (String × String))),
    C ≠ [] →
    (tasks.map Task.id).Nodup →
    tasks.map Task.id = allIds →
    (∀ c ∈ C, c ∈ tasks) →
    (∀ c ∈ C, ∃ d ∈ c.dependencies.getD [], d ∈ C.map Task.id ∨ d ∉ allIds) →
    (∀ i ∈ executed, i ∈ allIds) →
    (∀ i ∈ executed, i ∉ C.map Task.id) →
    executed.Nodup →
    wfLoop collab fuel tasks executed results clock trace = some out →
    out.2.2.2 = Except.error circularDependencyMsg
    ∧ (∀ c ∈ C, c ∈ out.1)
    ∧ (∀ ev ∈ out.2.2.1, ev ∈ trace ∨ ∀ t ∈ ev.ready, t.id ∉ C.map Task.id) := by
  intro fuel
  induction fuel with
  | zero => intro tasks executed results clock trace out _ _ _ _ _ _ _ _ h; cases h
  | succ f ih =>
      intro tasks executed results clock trace out hCne hnd hids hsub hblocked hexAll hexC
        hexNd hrun
      rw [wfLoop] at hrun
      by_cases hguard : executed.length < tasks.length
      · rw [if_pos hguard] at hrun
        have hreadyC : ∀ t ∈ readyTasks tasks executed, t.id ∉ C.map Task.id := by
          intro t ht hidC
          obtain ⟨c, hc, hcid⟩ := List.mem_map.mp hidC
          have hteq : t = c := nodup_id_eq hnd (mem_readyTasks ht).1 (hsub c hc) hcid.symm
          obtain ⟨d, hd, hdc⟩ := hblocked c hc
          have hds := (mem_readyTasks ht).2.2
          have hdex : d ∈ executed := depsSatisfied_mem hds d (by rw [hteq]; exact hd)
          rcases hdc with hdC | hdout
          · exact hexC d hdex hdC
          · exact hdout (hexAll d hdex)
        cases hready : readyTasks tasks executed with
        | nil =>
            rw [hready] at hrun
            dsimp only at hrun
            cases hrun
            exact ⟨rfl, hsub, fun ev hev => Or.inl hev⟩
        | cons rt rts =>
            rw [hready] at hrun
            dsimp only at hrun
            have hallok : ∀ p ∈ (execBatch collab clock (rt :: rts)).1,
                ∃ v, p.2 = Except.ok v :=
              fun p hp => execBatch_all_ok hok clock (rt :: rts) p hp
            have hfold := foldBatch_all_ok_none _ executed results hallok
            rw [hfold.1] at hrun
            have hreadyC2 : ∀ t ∈ (rt :: rts), t.id ∉ C.map Task.id := by
              intro t ht
              apply hreadyC
              rw [hready]
              exact ht
            have hidsmap : (execBatch collab clock (rt :: rts)).1.map (fun p => p.1.id)
                = (rt :: rts).map Task.id := execBatch_map_id collab clock (rt :: rts)
            have hnd2 : ((applyUpdates tasks
                ((execBatch collab clock (rt :: rts)).1.map Prod.fst)).map Task.id).Nodup := by
              rw [applyUpdates_map_id]
              exact hnd
            have hids2 : (applyUpdates tasks
                ((execBatch collab clock (rt :: rts)).1.map Prod.fst)).map Task.id = allIds := by
              rw [applyUpdates_map_id]
              exact hids
            have hsub2 : ∀ c ∈ C, c ∈ applyUpdates tasks
                ((execBatch collab clock (rt :: rts)).1.map Prod.fst) := by
              intro c hc
              apply applyUpdates_mem_of_ne _ (hsub c hc)
              intro v hv heq
              have hvid : v.id ∈ (rt :: rts).map Task.id := by
                rw [← hidsmap]
                obtain ⟨p, hp, rfl⟩ := List.mem_map.mp hv
                exact List.mem_map_of_mem _ hp
              obtain ⟨u, hu, huid⟩ := List.mem_map.mp hvid
              apply hreadyC2 u hu
              rw [huid, ← heq]
              exact List.mem_map_of_mem Task.id hc
            have hexAll2 : ∀ i ∈ (foldBatch (execBatch collab clock (rt :: rts)).1
                executed results).1, i ∈ allIds := by
              intro i hi
              rw [hfold.2, foldAdd_mem] at hi
              rcases hi with hi | hi
              · exact hexAll i hi
              · rw [hidsmap] at hi
                rw [← hids]
                refine readyTasks_ids_subset tasks executed ?_
                rw [hready]
                exact hi
            have hexC2 : ∀ i ∈ (foldBatch (execBatch collab clock (rt :: rts)).1
                executed results).1, i ∉ C.map Task.id := by
              intro i hi
              rw [hfold.2, foldAdd_mem] at hi
              rcases hi with hi | hi
              · exact hexC i hi
              · rw [hidsmap] at hi
                obtain ⟨u, hu, rfl⟩ := List.mem_map.mp hi
                exact hreadyC2 u hu
            have hexNd2 : ((foldBatch (execBatch collab clock (rt :: rts)).1
                executed results).1).Nodup := by
              rw [hfold.2]
              exact foldAdd_nodup _ hexNd
            obtain ⟨h1, h2, h3⟩ := ih _ _ _ _ _ out hCne hnd2 hids2 hsub2 hblocked hexAll2
              hexC2 hexNd2 hrun
            refine ⟨h1, h2, ?_⟩
            intro ev hev
            rcases h3 ev hev with hin | hsafe
            · rcases List.mem_append.mp hin with h | h
              · exact Or.inl h
              · rw [List.mem_singleton] at h
                subst h
                exact Or.inr hreadyC2
            · exact Or.inr hsafe
      · exfalso
        obtain ⟨c0, hc0⟩ := List.exists_mem_of_ne_nil C hCne
        have hc0id : c0.id ∈ allIds := by
          rw [← hids]
          exact List.mem_map_of_mem Task.id (hsub c0 hc0)
        have hsuber : executed ⊆ allIds.erase c0.id := by
          intro i hi
          have h1 := hexAll i hi
          have h2 : i ≠ c0.id := by
            intro heq
            apply hexC i hi
            rw [heq]
            exact List.mem_map_of_mem Task.id hc0
          exact (List.mem_erase_of_ne h2).mpr h1
        have hlen1 : executed.length ≤ (allIds.erase c0.id).length :=
          (hexNd.subperm hsuber).length_le
        have hlen2 : (allIds.erase c0.id).length = allIds.length - 1 :=
          List.length_erase_of_mem hc0id
        have hlen3 : tasks.length = allIds.length := by
          rw [← hids]
          simp
        have hpos : 0 < allIds.length := List.length_pos_of_mem hc0id
        omega

theorem string_data_append (s t : String) : (s ++ t).data = s.data ++ t.data := by
  cases s
  cases t
  rfl

theorem circ_ne_taskFailedMsg (i m : String) : circularDependencyMsg ≠ taskFailedMsg i m := by
  intro h
  have h2 := congrArg firstChar h
  rw [show firstChar circularDependencyMsg = some 'C' from rfl] at h2
  unfold taskFailedMsg firstChar at h2
  rw [string_data_append, string_data_append, string_data_append] at h2
  rw [show ("Task " : String).data = 'T' :: ("ask " : String).data from rfl] at h2
  simp at h2

/-- C2: for a workflow with distinct task ids containing a blocked core (a
nonempty set of tasks each of which has a dependency inside the set, as in a
cycle, or a dependency id matching no task of the workflow), executeWorkflow
terminates (the loop returns within tasks + 1 passes rather than hanging),
raises the graph error, whose message differs from every task-execution
error message, sets the workflow status to failed with that error recorded,
and no task of the blocked core is ever dispatched: the core records remain
in the final workflow untouched.  The collaborator-success hypothesis keeps
ordinary task failures from aborting the run before the graph error
surfaces. -/
theorem c2_cycle_graph_error (collab : Collab) (store : Except String Unit)
    (w : Workflow) (clock : Nat) (C : List Task)
    (hC : C ≠ [])
    (hnd : (w.tasks.map Task.id).Nodup)
    (hsub : ∀ c ∈ C, c ∈ w.tasks)
    (hblocked : ∀ c ∈ C, ∃ d ∈ c.dependencies.getD [],
        d ∈ C.map Task.id ∨ d ∉ w.tasks.map Task.id)
    (hok : ∀ i n, ∃ v, collab i n = Except.ok v)
    (hstore : store = Except.ok ()) :
    ((wfLoop collab (w.tasks.length + 1) w.tasks [] [] (clock + 1) []).isSome = true)
    ∧ ((executeWorkflow collab store w clock).result = Except.error circularDependencyMsg)
    ∧ ((executeWorkflow collab store w clock).wf.status = Status.failed)
    ∧ ((executeWorkflow collab store w clock).wf.error = some circularDependencyMsg)
    ∧ (∀ i m, circularDependencyMsg ≠ taskFailedMsg i m)
    ∧ (∀ ev ∈ (executeWorkflow collab store w clock).trace, ∀ t ∈ ev.ready,
        t.id ∉ C.map Task.id)
    ∧ (∀ c ∈ C, c ∈ (executeWorkflow collab store w clock).wf.tasks) := by
  subst hstore
  have hsome := wfLoop_isSome collab (w.tasks.length + 1) w.tasks [] [] (clock + 1) []
    (by omega) (by omega)
  cases hw : wfLoop collab (w.tasks.length + 1) w.tasks [] [] (clock + 1) [] with
  | none =>
      rw [hw] at hsome
      cases hsome
  | some out =>
      obtain ⟨tasks2, c2, tr, r⟩ := out
      obtain ⟨h1, h2, h3⟩ := wfLoop_blocked collab C (w.tasks.map Task.id) hok
        (w.tasks.length + 1) w.tasks [] [] (clock + 1) [] (tasks2, c2, tr, r)
        hC hnd rfl hsub hblocked (fun i hi => absurd hi (List.not_mem_nil i))
        (fun i hi => absurd hi (List.not_mem_nil i)) List.nodup_nil hw
      dsimp only at h1 h2 h3
      subst h1
      have hcore : executeWorkflow collab (Except.ok ()) w clock
          = { wf := { w with
                      status := Status.failed
                      startedAt := some clock
                      tasks := tasks2
                      completedAt := some c2
                      error := some circularDependencyMsg },
              result := Except.error circularDependencyMsg,
              trace := tr,
              clock := c2 + 1 } := by
        unfold executeWorkflow executeWorkflowCore
        dsimp only
        rw [hw]
        rfl
      refine ⟨rfl, by rw [hcore], by rw [hcore], by rw [hcore],
        circ_ne_taskFailedMsg, ?_, ?_⟩
      · rw [hcore]
        intro ev hev t ht
        rcases h3 ev hev with hc | hsafe
        · cases hc
        · exact hsafe t ht
      · intro c hc
        rw [hcore]
        exact h2 c hc

/-- C2 witness. -/
theorem c2_witness :
    (executeWorkflow okCollab (Except.ok ()) cycleWf 0).wf.status = Status.failed :=
  (c2_cycle_graph_error okCollab (Except.ok ()) cycleWf 0 cycleWf.tasks (by decide)
    (by decide) (fun c hc => hc) (by decide) (fun i n => ⟨"ok", rfl⟩) rfl).2.2.1

end Gateway
